import Mathlib

/-!
Shallow embedding of the COCO ground-truth normalization scripts
(`detection/build_detection_gt.py`, `segmentation/build_instance_gt.py`,
`panoptic/build_panoptic_gt.py`) and proofs of the specified properties.

Python floats in bounding boxes are modelled as rationals; numpy `int64`
arithmetic is modelled as integer arithmetic wrapped into `[-2^63, 2^63)`;
numpy arrays are modelled as lists of lists; Python dictionaries as
association lists; a raised `KeyError` / `FileNotFoundError` as `none` in
an `Option`-valued result.
-/

namespace CocoGT

/-- A COCO category record: sparse dataset-assigned id plus a display name. -/
structure Category where
  id : ℕ
  name : String
deriving DecidableEq, Repr

/-- Embeds `build_category_id_mapping` (identical in
`build_detection_gt.py` and `build_panoptic_gt.py`): sort the category
records by `id` ascending, then map each category id to its position in the
sorted order.  The Python dict comprehension
`{cat["id"]: idx for idx, cat in enumerate(cats_sorted)}` is modelled as an
association list of `(raw_id, class_index)` pairs. -/
def build_category_id_mapping (cats : List Category) : List (ℕ × ℕ) :=
  ((cats.insertionSort (fun a b => a.id ≤ b.id)).enum).map (fun p => (p.2.id, p.1))

/-- Python's `round` (round half to even) on a rational, as used by
`bbox_to_mask` via `int(round(x))`. -/
def roundHalfEven (q : ℚ) : ℤ :=
  if q - (q.floor : ℚ) < 1/2 then q.floor
  else if 1/2 < q - (q.floor : ℚ) then q.floor + 1
  else if q.floor % 2 = 0 then q.floor else q.floor + 1

/-- The clipping `max(0, min(v, hi))` from `bbox_to_mask`; the result is a
natural number since it is always in `[0, hi]`. -/
def clipToNat (v : ℤ) (hi : ℕ) : ℕ := (max 0 (min v (hi : ℤ))).toNat

/-- The array write `mask[y0:y1, x0:x1] = 1` on a zero array of shape
`(height, width)`: row `i`, column `j` is `1` iff `y0 ≤ i < y1` and
`x0 ≤ j < x1`. -/
def mkRectMask (y0 y1 x0 x1 height width : ℕ) : List (List ℕ) :=
  (List.range height).map fun i =>
    (List.range width).map fun j =>
      if y0 ≤ i ∧ i < y1 ∧ x0 ≤ j ∧ j < x1 then 1 else 0

/-- Embeds `bbox_to_mask(bbox, height, width)` from
`detection/build_detection_gt.py`: round the four bounds, clip the x-bounds
to `[0, width]` and the y-bounds to `[0, height]`, and fill the half-open
rectangle with ones. -/
def bbox_to_mask (x y w h : ℚ) (height width : ℕ) : List (List ℕ) :=
  mkRectMask
    (clipToNat (roundHalfEven y) height)
    (clipToNat (roundHalfEven (y + h)) height)
    (clipToNat (roundHalfEven x) width)
    (clipToNat (roundHalfEven (x + w)) width)
    height width

/-- Number of set pixels in a {0,1} mask (`mask.sum()`). -/
def maskCount (m : List (List ℕ)) : ℕ := (m.map List.sum).sum

/-- Pixel access with the out-of-range default `0`. -/
def getPixel (m : List (List ℕ)) (i j : ℕ) : ℕ := (m.getD i []).getD j 0

/-- Cell access in an integer-valued map with the out-of-range default `0`. -/
def getCell (m : List (List ℤ)) (i j : ℕ) : ℤ := (m.getD i []).getD j 0

/-- numpy `int64` wrap-around: reduce an unbounded integer into
`[-2^63, 2^63)`. -/
def i64 (n : ℤ) : ℤ := (n + 2 ^ 63) % 2 ^ 64 - 2 ^ 63

/-- One pixel of `rgb_to_id` from `panoptic/build_panoptic_gt.py`:
`color[...,0] + 256 * color[...,1] + 256**2 * color[...,2]` evaluated in
`int64` after `color.astype(np.int64)` (each intermediate wrapped). -/
def rgb_to_id_pixel (r g b : ℕ) : ℤ :=
  i64 (i64 ((r : ℤ) + i64 (256 * (g : ℤ))) + i64 (65536 * (b : ℤ)))

/-- Embeds `rgb_to_id` applied to a full `(H, W, 3)` image: the per-pixel
decode mapped over every pixel. -/
def rgb_to_id (img : List (List (ℕ × ℕ × ℕ))) : List (List ℤ) :=
  img.map (fun row => row.map (fun p => rgb_to_id_pixel p.1 p.2.1 p.2.2))

/-- The numpy comparison `(seg_id_map == seg_id).astype(np.uint8)`:
pixel-wise equality test producing a {0,1} mask. -/
def eqMask (m : List (List ℤ)) (sid : ℤ) : List (List ℕ) :=
  m.map (fun row => row.map (fun v => if v = sid then 1 else 0))

/-- A COCO image record (`{id, width, height}`). -/
structure ImageInfo where
  id : ℕ
  width : ℕ
  height : ℕ
deriving DecidableEq, Repr

/-- One entry of `segments_info` in a panoptic annotation. -/
structure PanopticSegment where
  id : ℤ
  category_id : ℕ
deriving DecidableEq, Repr

/-- A panoptic annotation record (`{image_id, file_name, segments_info}`). -/
structure PanopticAnn where
  image_id : ℕ
  file_name : String
  segments_info : List PanopticSegment
deriving DecidableEq, Repr

/-- One output record of the panoptic assembler. -/
structure PanopticRecord where
  instance_id : ℤ
  class_id : ℕ
  mask : List (List ℕ)
deriving DecidableEq, Repr

/-- Embeds `index_panoptic_structures`: build `image_id → image_info` and
`image_id → annotation` lookup structures, modelled as association lists. -/
def index_panoptic_structures (images : List ImageInfo) (anns : List PanopticAnn) :
    List (ℕ × ImageInfo) × List (ℕ × PanopticAnn) :=
  (images.map (fun i => (i.id, i)), anns.map (fun a => (a.image_id, a)))

/-- Embeds `get_panoptic_gt_for_image`.  The dictionary subscripts
`img_id_to_img[img_id]` and `img_id_to_ann[img_id]` (a `KeyError` when
absent), the existence check plus `Image.open` (a `FileNotFoundError` when
the PNG is missing, modelled by the `load` collaborator returning `none`),
and the subscript `catid_to_classid[cat_id]` for every segment are the
failure points; any of them aborts the whole call with `none`.  On success
the result is the record list (one record per segment, in order) together
with the decoded map's `(H, W)`. -/
def get_panoptic_gt_for_image (img_id : ℕ)
    (img_id_to_img : List (ℕ × ImageInfo)) (img_id_to_ann : List (ℕ × PanopticAnn))
    (catid_to_classid : List (ℕ × ℕ))
    (load : String → Option (List (List (ℕ × ℕ × ℕ)))) :
    Option (List PanopticRecord × ℕ × ℕ) := do
  let _img_info ← img_id_to_img.lookup img_id
  let ann ← img_id_to_ann.lookup img_id
  let panoptic_rgb ← load ann.file_name
  let seg_id_map := rgb_to_id panoptic_rgb
  let H := seg_id_map.length
  let W := (seg_id_map.headD []).length
  let recs ← ann.segments_info.mapM (fun seg =>
    (catid_to_classid.lookup seg.category_id).map (fun class_id =>
      { instance_id := seg.id, class_id := class_id,
        mask := eqMask seg_id_map seg.id : PanopticRecord }))
  pure (recs, H, W)

/-- A detection/instance COCO annotation record; the polygon/RLE payload is
kept only through its externally decoded mask (`coco.annToMask`, an
external collaborator). -/
structure Ann where
  id : ℕ
  category_id : ℕ
  bbox : ℚ × ℚ × ℚ × ℚ
  decoded_mask : List (List ℕ)
deriving DecidableEq, Repr

/-- One output record of the detection assembler (`{class_id, mask}`). -/
structure DetectionRecord where
  class_id : ℕ
  mask : List (List ℕ)
deriving DecidableEq, Repr

/-- One output record of the instance assembler. -/
structure InstanceRecord where
  instance_id : ℕ
  class_id : ℕ
  mask : List (List ℕ)
deriving DecidableEq, Repr

/-- Embeds `get_detection_gt_for_image` from its annotation loop onward:
the image's declared `(height, width)` and its annotation list stand for
the external COCO queries.  For every annotation the category lookup
`catid_to_classid[coco_cat_id]` can raise (`none`); otherwise the bbox is
rasterized and one record appended. -/
def get_detection_gt_for_image (height width : ℕ) (anns : List Ann)
    (catid_to_classid : List (ℕ × ℕ)) : Option (List DetectionRecord) :=
  anns.mapM (fun ann =>
    (catid_to_classid.lookup ann.category_id).map (fun class_id =>
      { class_id := class_id,
        mask := bbox_to_mask ann.bbox.1 ann.bbox.2.1 ann.bbox.2.2.1 ann.bbox.2.2.2
          height width : DetectionRecord }))

/-- The shape comparison `mask.shape != (height, width)` for a dense
rectangular array modelled as a list of rows. -/
def isShape (m : List (List ℕ)) (height width : ℕ) : Bool :=
  m.length = height && m.all (fun row => row.length = width)

/-- Embeds `get_instance_gt_for_image` from its annotation loop onward.
Per annotation: the category lookup happens first and a miss raises
(`none` for the whole call); then the decoded mask's shape is checked
against the declared dimensions and a mismatching annotation is skipped
(`continue`); otherwise one record is appended. -/
def get_instance_gt_for_image (height width : ℕ) (catid_to_classid : List (ℕ × ℕ)) :
    List Ann → Option (List InstanceRecord)
  | [] => some []
  | ann :: rest => do
    let class_id ← catid_to_classid.lookup ann.category_id
    let tail ← get_instance_gt_for_image height width catid_to_classid rest
    if isShape ann.decoded_mask height width then
      pure ({ instance_id := ann.id, class_id := class_id,
              mask := ann.decoded_mask } :: tail)
    else
      pure tail

/-- Test fixture: the 4×4 panoptic scenario image — top half encodes
segment id `1000` as `(232, 3, 0)`, bottom half `2000` as `(208, 7, 0)`. -/
def scenario_rgb : List (List (ℕ × ℕ × ℕ)) :=
  [[(232, 3, 0), (232, 3, 0), (232, 3, 0), (232, 3, 0)],
   [(232, 3, 0), (232, 3, 0), (232, 3, 0), (232, 3, 0)],
   [(208, 7, 0), (208, 7, 0), (208, 7, 0), (208, 7, 0)],
   [(208, 7, 0), (208, 7, 0), (208, 7, 0), (208, 7, 0)]]

/-- Test fixture: category list for the scenario (ids 5 and 18). -/
def scenario_categories : List Category := [⟨5, "cat5"⟩, ⟨18, "cat18"⟩]

/-- Test fixture: image index for scenario image 42 (4×4). -/
def scenario_imgs : List (ℕ × ImageInfo) := [(42, ⟨42, 4, 4⟩)]

/-- Test fixture: annotation index for scenario image 42 with segments
`(id=1000, category 5)` and `(id=2000, category 18)`. -/
def scenario_anns : List (ℕ × PanopticAnn) :=
  [(42, ⟨42, "000042.png", [⟨1000, 5⟩, ⟨2000, 18⟩]⟩)]

/-- Test fixture: the image loader returning the scenario PNG. -/
def scenario_load : String → Option (List (List (ℕ × ℕ × ℕ))) :=
  fun _ => some scenario_rgb

/-- Test fixture: the expected top-half mask. -/
def scenario_top_mask : List (List ℕ) :=
  [[1, 1, 1, 1], [1, 1, 1, 1], [0, 0, 0, 0], [0, 0, 0, 0]]

/-- Test fixture: the expected bottom-half mask. -/
def scenario_bot_mask : List (List ℕ) :=
  [[0, 0, 0, 0], [0, 0, 0, 0], [1, 1, 1, 1], [1, 1, 1, 1]]

instance : IsTotal Category (fun a b => a.id ≤ b.id) :=
  ⟨fun a b => Nat.le_total a.id b.id⟩

instance : IsTrans Category (fun a b => a.id ≤ b.id) :=
  ⟨fun _ _ _ => Nat.le_trans⟩

/-! ### Helper lemmas -/

/-- An association-list lookup hit names a pair of the list. -/
theorem lookup_mem {β : Type} {l : List (ℕ × β)} {k : ℕ} {b : β}
    (h : l.lookup k = some b) : (k, b) ∈ l := by
  rcases List.lookup_eq_some_iff.mp h with ⟨l₁, l₂, rfl, -⟩
  simp

/-- `List.mapM` over `Option`, unfolded one step into `Option.bind`. -/
theorem mapM_option_cons {α β : Type} (f : α → Option β) (a : α) (l : List α) :
    (a :: l).mapM f
      = (f a).bind (fun b => (l.mapM f).bind (fun bs => some (b :: bs))) := by
  rw [List.mapM_cons]
  rfl

/-- An `Option`-valued `mapM` success is a pointwise success. -/
theorem forall₂_of_mapM_eq_some {α β : Type} {f : α → Option β} :
    ∀ {l : List α} {r : List β}, l.mapM f = some r →
      List.Forall₂ (fun a b => f a = some b) l r := by
  intro l
  induction l with
  | nil =>
    intro r h
    rw [List.mapM_nil] at h
    cases h
    exact List.Forall₂.nil
  | cons a l ih =>
    intro r h
    rw [mapM_option_cons] at h
    cases hfa : f a with
    | none => rw [hfa, Option.none_bind] at h; cases h
    | some b =>
      cases hml : l.mapM f with
      | none => rw [hfa, hml, Option.some_bind, Option.none_bind] at h; cases h
      | some bs =>
        rw [hfa, hml, Option.some_bind, Option.some_bind] at h
        cases h
        exact List.Forall₂.cons hfa (ih hml)

/-- A single failing element makes the whole `Option`-valued `mapM` fail. -/
theorem mapM_eq_none_of_mem {α β : Type} {f : α → Option β} {l : List α} {a : α}
    (ha : a ∈ l) (hf : f a = none) : l.mapM f = none := by
  induction l with
  | nil => cases ha
  | cons x l ih =>
    rw [mapM_option_cons]
    rcases List.mem_cons.mp ha with rfl | ha
    · rw [hf, Option.none_bind]
    · cases hx : f x with
      | none => rw [Option.none_bind]
      | some b => rw [Option.some_bind, ih ha, Option.none_bind]

/-- If every element succeeds, the `Option`-valued `mapM` succeeds. -/
theorem mapM_isSome_of_forall {α β : Type} {f : α → Option β} {l : List α}
    (h : ∀ a ∈ l, (f a).isSome) : (l.mapM f).isSome := by
  induction l with
  | nil => rw [List.mapM_nil]; exact rfl
  | cons a l ih =>
    rcases Option.isSome_iff_exists.mp (h a (by simp)) with ⟨b, hb⟩
    rcases Option.isSome_iff_exists.mp (ih (fun x hx => h x (by simp [hx]))) with ⟨bs, hbs⟩
    rw [mapM_option_cons, hb, Option.some_bind, hbs, Option.some_bind]
    exact rfl

/-- The rational floor is a lower bound. -/
theorem floor_le_self (q : ℚ) : (q.floor : ℚ) ≤ q :=
  Rat.le_floor.mp le_rfl

/-- The rational floor misses its argument by less than one. -/
theorem self_lt_floor_add_one (q : ℚ) : q < (q.floor : ℚ) + 1 := by
  by_contra hc
  push_neg at hc
  have h1 : q.floor + 1 ≤ q.floor := Rat.le_floor.mpr (by push_cast; linarith)
  omega

/-- Floor of an integer cast. -/
theorem floor_intCast (n : ℤ) : ((n : ℚ)).floor = n := by
  have h1 : n ≤ ((n : ℚ)).floor := Rat.le_floor.mpr le_rfl
  have h2 : (((n : ℚ)).floor : ℚ) ≤ (n : ℚ) := floor_le_self _
  have h3 : ((n : ℚ)).floor ≤ n := by exact_mod_cast h2
  omega

/-- The rational floor is monotone. -/
theorem floor_mono {q r : ℚ} (h : q ≤ r) : q.floor ≤ r.floor :=
  Rat.le_floor.mpr (le_trans (floor_le_self q) h)

/-- Floor commutes with adding an integer. -/
theorem floor_add_int (q : ℚ) (n : ℤ) : (q + (n : ℚ)).floor = q.floor + n := by
  have h1 : q.floor + n ≤ (q + (n : ℚ)).floor :=
    Rat.le_floor.mpr (by push_cast; linarith [floor_le_self q])
  have h2 : ((q + (n : ℚ)).floor : ℚ) ≤ q + (n : ℚ) := floor_le_self _
  have h3 : (q + (n : ℚ)).floor - n ≤ q.floor :=
    Rat.le_floor.mpr (by push_cast; linarith)
  omega

/-- `roundHalfEven` stays within one of the floor. -/
theorem roundHalfEven_bounds (q : ℚ) :
    q.floor ≤ roundHalfEven q ∧ roundHalfEven q ≤ q.floor + 1 := by
  unfold roundHalfEven
  split
  · omega
  · split
    · omega
    · split <;> omega

/-- `roundHalfEven` is the identity on integers. -/
theorem roundHalfEven_intCast (n : ℤ) : roundHalfEven (n : ℚ) = n := by
  unfold roundHalfEven
  rw [floor_intCast, sub_self]
  norm_num

/-- `roundHalfEven` is monotone. -/
theorem roundHalfEven_mono {q r : ℚ} (h : q ≤ r) :
    roundHalfEven q ≤ roundHalfEven r := by
  have hf := floor_mono h
  by_cases hlt : q.floor < r.floor
  · have hb1 := roundHalfEven_bounds q
    have hb2 := roundHalfEven_bounds r
    omega
  · have heq : q.floor = r.floor := by omega
    have hfr : q - (q.floor : ℚ) ≤ r - (r.floor : ℚ) := by
      rw [heq]; linarith
    unfold roundHalfEven
    rw [heq] at hfr ⊢
    split_ifs <;> first | omega | linarith

/-- `roundHalfEven` commutes with adding an integer when the fractional
part is not exactly one half (away from ties, rounding is translation
invariant). -/
theorem roundHalfEven_int_add (n : ℤ) (q : ℚ)
    (hq : q - (q.floor : ℚ) ≠ 1/2) :
    roundHalfEven ((n : ℚ) + q) = n + roundHalfEven q := by
  have hf : ((n : ℚ) + q).floor = q.floor + n := by
    rw [add_comm]; exact floor_add_int q n
  have hfr : (n : ℚ) + q - (((n : ℚ) + q).floor : ℚ) = q - (q.floor : ℚ) := by
    rw [hf]; push_cast; ring
  unfold roundHalfEven
  rw [hfr, hf]
  split_ifs <;> first | omega | (exfalso; apply hq; linarith)

/-- `roundHalfEven` of a nonnegative rational is nonnegative. -/
theorem roundHalfEven_nonneg {q : ℚ} (h : 0 ≤ q) : 0 ≤ roundHalfEven q := by
  have h1 : (0 : ℤ) ≤ q.floor := by
    have := floor_mono h
    rwa [show ((0 : ℚ)).floor = 0 from floor_intCast 0] at this
  exact le_trans h1 (roundHalfEven_bounds q).1

/-- `roundHalfEven` respects an integer upper bound. -/
theorem roundHalfEven_le_intCast {q : ℚ} {n : ℤ} (h : q ≤ (n : ℚ)) :
    roundHalfEven q ≤ n := by
  have := roundHalfEven_mono h
  rwa [roundHalfEven_intCast] at this

/-- Summing a scaled interval indicator over `range n`. -/
theorem sum_indicator_range (a b n A : ℕ) :
    ((List.range n).map (fun j => if a ≤ j ∧ j < b then A else 0)).sum
      = A * (min b n - min a n) := by
  induction n with
  | zero => simp
  | succ n ih =>
    rw [List.range_succ, List.map_append, List.sum_append, ih]
    simp only [List.map_cons, List.map_nil, List.sum_cons, List.sum_nil]
    split
    · rename_i hc
      have e1 : min b (n + 1) = n + 1 := by omega
      have e2 : min a (n + 1) = a := by omega
      have e3 : min b n = n := by omega
      have e4 : min a n = a := by omega
      rw [e1, e2, e3, e4, show n + 1 - a = (n - a) + 1 from by omega, Nat.mul_succ]
      omega
    · rename_i hc
      have hm : min b (n + 1) - min a (n + 1) = min b n - min a n := by omega
      rw [hm]
      omega

/-- The row count of `mkRectMask`. -/
theorem mkRectMask_length (y0 y1 x0 x1 h w : ℕ) :
    (mkRectMask y0 y1 x0 x1 h w).length = h := by
  simp [mkRectMask]

/-- Every row of `mkRectMask` has the declared width. -/
theorem mkRectMask_row_length (y0 y1 x0 x1 h w : ℕ) :
    ∀ row ∈ mkRectMask y0 y1 x0 x1 h w, row.length = w := by
  intro row hrow
  rcases List.mem_map.mp hrow with ⟨i, -, rfl⟩
  simp

/-- Every entry of `mkRectMask` is `0` or `1`. -/
theorem mkRectMask_values (y0 y1 x0 x1 h w : ℕ) :
    ∀ row ∈ mkRectMask y0 y1 x0 x1 h w, ∀ v ∈ row, v = 0 ∨ v = 1 := by
  intro row hrow v hv
  rcases List.mem_map.mp hrow with ⟨i, -, rfl⟩
  rcases List.mem_map.mp hv with ⟨j, -, rfl⟩
  split
  · right; rfl
  · left; rfl

/-- The pixel values of `mkRectMask` inside the image bounds. -/
theorem getPixel_mkRectMask (y0 y1 x0 x1 h w i j : ℕ) (hi : i < h) (hj : j < w) :
    getPixel (mkRectMask y0 y1 x0 x1 h w) i j
      = if y0 ≤ i ∧ i < y1 ∧ x0 ≤ j ∧ j < x1 then 1 else 0 := by
  have hi2 : i < ((List.range h).map (fun i => (List.range w).map fun j =>
      if y0 ≤ i ∧ i < y1 ∧ x0 ≤ j ∧ j < x1 then 1 else 0)).length := by
    simpa using hi
  unfold getPixel mkRectMask
  simp only [List.getD_eq_getElem?_getD]
  rw [List.getElem?_eq_getElem hi2]
  simp only [Option.getD_some, List.getElem_map, List.getElem_range]
  have hj2 : j < ((List.range w).map fun jj =>
      if y0 ≤ i ∧ i < y1 ∧ x0 ≤ jj ∧ jj < x1 then 1 else 0).length := by
    simpa using hj
  rw [List.getElem?_eq_getElem hj2]
  simp only [Option.getD_some, List.getElem_map, List.getElem_range]

/-- The number of ones in `mkRectMask` is the area of the clipped
rectangle. -/
theorem maskCount_mkRectMask (y0 y1 x0 x1 h w : ℕ) :
    maskCount (mkRectMask y0 y1 x0 x1 h w)
      = (min y1 h - min y0 h) * (min x1 w - min x0 w) := by
  unfold maskCount mkRectMask
  rw [List.map_map]
  have hrow : ∀ i ∈ List.range h,
      (List.sum ∘ fun i => (List.range w).map fun j =>
        if y0 ≤ i ∧ i < y1 ∧ x0 ≤ j ∧ j < x1 then 1 else 0) i
      = (fun i => if y0 ≤ i ∧ i < y1 then min x1 w - min x0 w else 0) i := by
    intro i _
    simp only [Function.comp]
    by_cases hy : y0 ≤ i ∧ i < y1
    · have : ((List.range w).map fun j =>
          if y0 ≤ i ∧ i < y1 ∧ x0 ≤ j ∧ j < x1 then 1 else 0)
          = ((List.range w).map fun j => if x0 ≤ j ∧ j < x1 then 1 else 0) := by
        apply List.map_congr_left
        intro j _
        simp [hy.1, hy.2]
      rw [this, sum_indicator_range x0 x1 w 1, if_pos hy, one_mul]
    · have : ((List.range w).map fun j =>
          if y0 ≤ i ∧ i < y1 ∧ x0 ≤ j ∧ j < x1 then 1 else 0)
          = ((List.range w).map fun _ => 0) := by
        apply List.map_congr_left
        intro j _
        rw [if_neg]
        tauto
      rw [this, if_neg hy]
      simp
  rw [List.map_congr_left hrow, sum_indicator_range y0 y1 h (min x1 w - min x0 w)]
  apply Nat.mul_comm

/-- Clipping lands inside `[0, hi]`. -/
theorem clipToNat_le (v : ℤ) (hi : ℕ) : clipToNat v hi ≤ hi := by
  unfold clipToNat
  omega

/-- Clipping is the identity on values already inside `[0, hi]`. -/
theorem clipToNat_of_mem {v : ℤ} {hi : ℕ} (h0 : 0 ≤ v) (hle : v ≤ (hi : ℤ)) :
    (clipToNat v hi : ℤ) = v := by
  unfold clipToNat
  omega

/-- The class indices stored in a built category mapping are exactly
`0, 1, ..., n-1` in order. -/
theorem build_mapping_snd (cats : List Category) :
    (build_category_id_mapping cats).map Prod.snd = List.range cats.length := by
  unfold build_category_id_mapping
  rw [List.map_map]
  have hcomp : (Prod.snd ∘ fun p : ℕ × Category => (p.2.id, p.1)) = Prod.fst := rfl
  rw [hcomp, List.enum_map_fst, (List.perm_insertionSort _ _).length_eq]

/-- The keys of a built category mapping are the sorted category ids. -/
theorem build_mapping_fst (cats : List Category) :
    (build_category_id_mapping cats).map Prod.fst
      = (cats.insertionSort (fun a b => a.id ≤ b.id)).map Category.id := by
  unfold build_category_id_mapping
  rw [List.map_map]
  have hcomp : (Prod.fst ∘ fun p : ℕ × Category => (p.2.id, p.1))
      = Category.id ∘ Prod.snd := rfl
  rw [hcomp, ← List.map_map, List.enum_map_snd]

/-- Any class index looked up in a built category mapping is below the
number of categories. -/
theorem lookup_build_mapping_lt {cats : List Category} {k v : ℕ}
    (h : (build_category_id_mapping cats).lookup k = some v) : v < cats.length := by
  have hmem : (k, v) ∈ build_category_id_mapping cats := lookup_mem h
  have hv : v ∈ (build_category_id_mapping cats).map Prod.snd :=
    List.mem_map.mpr ⟨(k, v), hmem, rfl⟩
  rw [build_mapping_snd] at hv
  exact List.mem_range.mp hv

/-- C1: for a category list with unique ids, `build_category_id_mapping`
assigns class indices by position in the id-sorted order: its keys are a
permutation of the raw category ids, listed in strictly increasing order,
its values are exactly `[0, len-1]` in that order (so the mapping is a
bijection from the raw ids onto `[0, len-1]`), and rebuilding from the same
list yields the same mapping. -/
theorem C1_category_mapping_bijection (cats : List Category)
    (h : (cats.map Category.id).Nodup) :
    ((build_category_id_mapping cats).map Prod.fst).Perm (cats.map Category.id) ∧
    ((build_category_id_mapping cats).map Prod.fst).Sorted (· < ·) ∧
    (build_category_id_mapping cats).map Prod.snd = List.range cats.length ∧
    build_category_id_mapping cats = build_category_id_mapping cats := by
  have hperm : (cats.insertionSort (fun a b => a.id ≤ b.id)).Perm cats :=
    List.perm_insertionSort _ _
  have hidperm :
      ((cats.insertionSort (fun a b => a.id ≤ b.id)).map Category.id).Perm
        (cats.map Category.id) := hperm.map _
  refine ⟨?_, ?_, build_mapping_snd cats, rfl⟩
  · rw [build_mapping_fst]
    exact hidperm
  · rw [build_mapping_fst]
    have hsorted := List.sorted_insertionSort (fun a b => a.id ≤ b.id) cats
    have hle : ((cats.insertionSort (fun a b => a.id ≤ b.id)).map
        Category.id).Sorted (· ≤ ·) :=
      List.Pairwise.map _ (fun _ _ hab => hab) hsorted
    have hnd : ((cats.insertionSort (fun a b => a.id ≤ b.id)).map
        Category.id).Nodup := hidperm.nodup_iff.mpr h
    exact hle.lt_of_le hnd

/-- C1 witness: the mapping built from ids `3, 1, 7` is a sorted bijection
onto `[0, 2]`. -/
theorem C1_category_mapping_bijection_witness :
    ((build_category_id_mapping
        [⟨3, "c"⟩, ⟨1, "a"⟩, ⟨7, "b"⟩]).map Prod.fst).Perm
      ([⟨3, "c"⟩, ⟨1, "a"⟩, ⟨7, "b"⟩].map Category.id) ∧
    ((build_category_id_mapping
        [⟨3, "c"⟩, ⟨1, "a"⟩, ⟨7, "b"⟩]).map Prod.fst).Sorted (· < ·) ∧
    (build_category_id_mapping [⟨3, "c"⟩, ⟨1, "a"⟩, ⟨7, "b"⟩]).map Prod.snd
      = List.range ([⟨3, "c"⟩, ⟨1, "a"⟩, ⟨7, "b"⟩] : List Category).length ∧
    build_category_id_mapping [⟨3, "c"⟩, ⟨1, "a"⟩, ⟨7, "b"⟩]
      = build_category_id_mapping [⟨3, "c"⟩, ⟨1, "a"⟩, ⟨7, "b"⟩] :=
  C1_category_mapping_bijection [⟨3, "c"⟩, ⟨1, "a"⟩, ⟨7, "b"⟩] (by decide)

/-- One decoded pixel: the `int64` arithmetic never wraps for 8-bit
channels and yields exactly `R + 256·G + 256²·B`. -/
theorem rgb_to_id_pixel_eq {r g b : ℕ} (hr : r ≤ 255) (hg : g ≤ 255)
    (hb : b ≤ 255) :
    rgb_to_id_pixel r g b = (r : ℤ) + 256 * (g : ℤ) + 65536 * (b : ℤ) := by
  unfold rgb_to_id_pixel i64
  omega

/-- C2: for a pixel array with all channels in `[0, 255]`, `rgb_to_id`
computes `R + 256·G + 256²·B` at every pixel — the full-image decode equals
the pixel-wise scalar formula — and every decoded value fits in
`[0, 256³ - 1]`, so the `int64` arithmetic never overflows. -/
theorem C2_rgb_to_id_decode (img : List (List (ℕ × ℕ × ℕ)))
    (hb : ∀ row ∈ img, ∀ p ∈ row, p.1 ≤ 255 ∧ p.2.1 ≤ 255 ∧ p.2.2 ≤ 255) :
    rgb_to_id img
      = img.map (fun row => row.map (fun p =>
          (p.1 : ℤ) + 256 * (p.2.1 : ℤ) + 65536 * (p.2.2 : ℤ))) ∧
    ∀ row ∈ rgb_to_id img, ∀ v ∈ row, 0 ≤ v ∧ v ≤ 256 ^ 3 - 1 := by
  constructor
  · unfold rgb_to_id
    apply List.map_congr_left
    intro row hrow
    apply List.map_congr_left
    intro pp hp
    exact rgb_to_id_pixel_eq (hb row hrow pp hp).1 (hb row hrow pp hp).2.1
      (hb row hrow pp hp).2.2
  · intro row hrow v hv
    unfold rgb_to_id at hrow
    rcases List.mem_map.mp hrow with ⟨r0, hr0, rfl⟩
    rcases List.mem_map.mp hv with ⟨pp, hpp, rfl⟩
    rcases hb r0 hr0 pp hpp with ⟨h1, h2, h3⟩
    rw [rgb_to_id_pixel_eq h1 h2 h3]
    omega

/-- C2 witness: the single-pixel image `(12, 34, 56)` decodes to
`12 + 256·34 + 65536·56` within range. -/
theorem C2_rgb_to_id_decode_witness :
    rgb_to_id [[(12, 34, 56)]]
      = [[(12, 34, 56)]].map (fun row => row.map (fun p =>
          (p.1 : ℤ) + 256 * (p.2.1 : ℤ) + 65536 * (p.2.2 : ℤ))) ∧
    ∀ row ∈ rgb_to_id [[(12, 34, 56)]], ∀ v ∈ row, 0 ≤ v ∧ v ≤ 256 ^ 3 - 1 :=
  C2_rgb_to_id_decode [[(12, 34, 56)]] (by decide)

/-- C3: `bbox_to_mask` rounds the four bounds half-to-even, clips the
x-bounds to `[0, width]` and the y-bounds to `[0, height]`, and sets
exactly the closed-open rectangle `[y0:y1, x0:x1]` to one; in particular
the bbox `(x=-5, y=2, w=10, h=3)` on an 8×8 image sets exactly 15 pixels,
at rows 2–4 and columns 0–4. -/
theorem C3_bbox_to_mask_spec (x y w h : ℚ) (height width i j : ℕ)
    (hi : i < height) (hj : j < width) :
    getPixel (bbox_to_mask x y w h height width) i j
      = (if clipToNat (roundHalfEven y) height ≤ i ∧
            i < clipToNat (roundHalfEven (y + h)) height ∧
            clipToNat (roundHalfEven x) width ≤ j ∧
            j < clipToNat (roundHalfEven (x + w)) width
         then 1 else 0) ∧
    maskCount (bbox_to_mask (-5) 2 10 3 8 8) = 15 ∧
    (∀ a < 8, ∀ b < 8,
      (getPixel (bbox_to_mask (-5) 2 10 3 8 8) a b = 1 ↔
        (2 ≤ a ∧ a ≤ 4 ∧ b ≤ 4))) := by
  refine ⟨?_, by decide!, by decide!⟩
  unfold bbox_to_mask
  exact getPixel_mkRectMask _ _ _ _ _ _ _ _ hi hj

/-- C3 witness: the general pixel characterization applied at pixel
`(2, 0)` of the clipped scenario bbox. -/
theorem C3_bbox_to_mask_spec_witness :
    getPixel (bbox_to_mask (-5) 2 10 3 8 8) 2 0
      = (if clipToNat (roundHalfEven 2) 8 ≤ 2 ∧
            2 < clipToNat (roundHalfEven (2 + 3)) 8 ∧
            clipToNat (roundHalfEven (-5)) 8 ≤ 0 ∧
            0 < clipToNat (roundHalfEven (-5 + 10)) 8
         then 1 else 0) ∧
    maskCount (bbox_to_mask (-5) 2 10 3 8 8) = 15 ∧
    (∀ a < 8, ∀ b < 8,
      (getPixel (bbox_to_mask (-5) 2 10 3 8 8) a b = 1 ↔
        (2 ≤ a ∧ a ≤ 4 ∧ b ≤ 4))) :=
  C3_bbox_to_mask_spec (-5) 2 10 3 8 8 2 0 (by decide) (by decide)

/-- C4 counterexample: the fully-inside bbox `(x=2/5, y=0, w=2/5, h=2)` on
a 2×2 image rasterizes to 2 set pixels, while `round(w)·round(h) = 0·2 = 0`
— and `2/5` is not a rounding tie.  So the pixel count of a fully-inside
bbox is not `round(w)·round(h)`. -/
theorem C4_count_counterexample :
    (0 : ℚ) ≤ mkRat 2 5 ∧ (0 : ℚ) ≤ mkRat 2 5 ∧
    mkRat 2 5 + mkRat 2 5 ≤ ((2 : ℕ) : ℚ) ∧
    (0 : ℚ) ≤ 0 ∧ (0 : ℚ) ≤ 2 ∧ (0 : ℚ) + 2 ≤ ((2 : ℕ) : ℚ) ∧
    mkRat 2 5 - ((mkRat 2 5).floor : ℚ) ≠ 1/2 ∧
    maskCount (bbox_to_mask (mkRat 2 5) 0 (mkRat 2 5) 2 2 2) = 2 ∧
    (roundHalfEven (mkRat 2 5) * roundHalfEven 2).toNat = 0 := by
  decide!

/-- C4 (amended): for a bbox with nonnegative extents lying fully inside
the image, the pixel count is
`(round(x+w) − round(x)) · (round(y+h) − round(y))`; when additionally `x`
and `y` are integers and neither `w` nor `h` is a rounding tie (fractional
part exactly one half), this equals `round(w) · round(h)`. -/
theorem C4_inside_count (x y w h : ℚ) (height width : ℕ)
    (hx0 : 0 ≤ x) (hw0 : 0 ≤ w) (hxw : x + w ≤ ((width : ℕ) : ℚ))
    (hy0 : 0 ≤ y) (hh0 : 0 ≤ h) (hyh : y + h ≤ ((height : ℕ) : ℚ)) :
    maskCount (bbox_to_mask x y w h height width)
      = (roundHalfEven (y + h) - roundHalfEven y).toNat
        * (roundHalfEven (x + w) - roundHalfEven x).toNat ∧
    (∀ m n : ℤ, x = (m : ℚ) → y = (n : ℚ) →
      w - (w.floor : ℚ) ≠ 1/2 → h - (h.floor : ℚ) ≠ 1/2 →
      maskCount (bbox_to_mask x y w h height width)
        = (roundHalfEven w).toNat * (roundHalfEven h).toNat) := by
  have hx1 : roundHalfEven (x + w) ≤ (width : ℤ) :=
    roundHalfEven_le_intCast (by push_cast; linarith)
  have hy1 : roundHalfEven (y + h) ≤ (height : ℤ) :=
    roundHalfEven_le_intCast (by push_cast; linarith)
  have hx0r : 0 ≤ roundHalfEven x := roundHalfEven_nonneg hx0
  have hy0r : 0 ≤ roundHalfEven y := roundHalfEven_nonneg hy0
  have hxm : roundHalfEven x ≤ roundHalfEven (x + w) :=
    roundHalfEven_mono (by linarith)
  have hym : roundHalfEven y ≤ roundHalfEven (y + h) :=
    roundHalfEven_mono (by linarith)
  have ex0 : (clipToNat (roundHalfEven x) width : ℤ) = roundHalfEven x :=
    clipToNat_of_mem hx0r (by omega)
  have ex1 : (clipToNat (roundHalfEven (x + w)) width : ℤ)
      = roundHalfEven (x + w) := clipToNat_of_mem (by omega) hx1
  have ey0 : (clipToNat (roundHalfEven y) height : ℤ) = roundHalfEven y :=
    clipToNat_of_mem hy0r (by omega)
  have ey1 : (clipToNat (roundHalfEven (y + h)) height : ℤ)
      = roundHalfEven (y + h) := clipToNat_of_mem (by omega) hy1
  have hbx1 := clipToNat_le (roundHalfEven (x + w)) width
  have hbx0 := clipToNat_le (roundHalfEven x) width
  have hby1 := clipToNat_le (roundHalfEven (y + h)) height
  have hby0 := clipToNat_le (roundHalfEven y) height
  have main : maskCount (bbox_to_mask x y w h height width)
      = (roundHalfEven (y + h) - roundHalfEven y).toNat
        * (roundHalfEven (x + w) - roundHalfEven x).toNat := by
    unfold bbox_to_mask
    rw [maskCount_mkRectMask]
    congr 1
    · omega
    · omega
  refine ⟨main, ?_⟩
  rintro m n rfl rfl hwt hht
  have hwr : roundHalfEven ((m : ℚ) + w) = m + roundHalfEven w :=
    roundHalfEven_int_add m w hwt
  have hhr : roundHalfEven ((n : ℚ) + h) = n + roundHalfEven h :=
    roundHalfEven_int_add n h hht
  rw [main, hwr, hhr, roundHalfEven_intCast, roundHalfEven_intCast]
  have e1 : m + roundHalfEven w - m = roundHalfEven w := by omega
  have e2 : n + roundHalfEven h - n = roundHalfEven h := by omega
  rw [e1, e2, Nat.mul_comm]

/-- C4 witness: the integer-cornered bbox `(x=1, y=2, w=7/5, h=3)` on an
8×4 image has `1·3 = 3` set pixels, matching both count formulas. -/
theorem C4_inside_count_witness :
    maskCount (bbox_to_mask 1 2 (mkRat 7 5) 3 8 4)
      = (roundHalfEven (2 + 3) - roundHalfEven 2).toNat
        * (roundHalfEven (1 + mkRat 7 5) - roundHalfEven 1).toNat ∧
    (∀ m n : ℤ, (1 : ℚ) = (m : ℚ) → (2 : ℚ) = (n : ℚ) →
      mkRat 7 5 - ((mkRat 7 5).floor : ℚ) ≠ 1/2 → (3 : ℚ) - ((3 : ℚ).floor : ℚ) ≠ 1/2 →
      maskCount (bbox_to_mask 1 2 (mkRat 7 5) 3 8 4)
        = (roundHalfEven (mkRat 7 5)).toNat * (roundHalfEven 3).toNat) :=
  C4_inside_count 1 2 (mkRat 7 5) 3 8 4 (by decide!) (by decide!) (by decide!)
    (by decide!) (by decide!) (by decide!)

/-- C8: whenever the rounded, clipped rectangle is degenerate (an x- or
y-extent collapses), `bbox_to_mask` still returns a full `(height, width)`
mask, and it is all zero. -/
theorem C8_degenerate_bbox (x y w h : ℚ) (height width : ℕ)
    (hdeg : clipToNat (roundHalfEven (x + w)) width
        ≤ clipToNat (roundHalfEven x) width
      ∨ clipToNat (roundHalfEven (y + h)) height
        ≤ clipToNat (roundHalfEven y) height) :
    (bbox_to_mask x y w h height width).length = height ∧
    (∀ row ∈ bbox_to_mask x y w h height width, row.length = width) ∧
    maskCount (bbox_to_mask x y w h height width) = 0 ∧
    (∀ row ∈ bbox_to_mask x y w h height width, ∀ v ∈ row, v = 0) := by
  unfold bbox_to_mask
  refine ⟨mkRectMask_length _ _ _ _ _ _, mkRectMask_row_length _ _ _ _ _ _, ?_, ?_⟩
  · rw [maskCount_mkRectMask]
    rcases hdeg with hx | hy
    · have hz : min (clipToNat (roundHalfEven (x + w)) width) width
          - min (clipToNat (roundHalfEven x) width) width = 0 := by omega
      rw [hz, Nat.mul_zero]
    · have hz : min (clipToNat (roundHalfEven (y + h)) height) height
          - min (clipToNat (roundHalfEven y) height) height = 0 := by omega
      rw [hz, Nat.zero_mul]
  · intro row hrow v hv
    rcases List.mem_map.mp hrow with ⟨i, -, rfl⟩
    rcases List.mem_map.mp hv with ⟨j, -, rfl⟩
    rw [if_neg]
    rintro ⟨h1, h2, h3, h4⟩
    rcases hdeg with hx | hy
    · omega
    · omega

/-- C8 witness: the bbox `(x=-10, y=0, w=5, h=8)` lies entirely left of an
8×8 image; the mask is 8×8 and all zero. -/
theorem C8_degenerate_bbox_witness :
    (bbox_to_mask (-10) 0 5 8 8 8).length = 8 ∧
    (∀ row ∈ bbox_to_mask (-10) 0 5 8 8 8, row.length = 8) ∧
    maskCount (bbox_to_mask (-10) 0 5 8 8 8) = 0 ∧
    (∀ row ∈ bbox_to_mask (-10) 0 5 8 8 8, ∀ v ∈ row, v = 0) :=
  C8_degenerate_bbox (-10) 0 5 8 8 8 (by decide!)

/-- A pixel of an equality mask reads `1` only where the id map holds the
tested segment id. -/
theorem eqMask_pixel {m : List (List ℤ)} {sid : ℤ} {i j : ℕ}
    (h : getPixel (eqMask m sid) i j = 1) : getCell m i j = sid := by
  unfold getPixel eqMask at h
  unfold getCell
  simp only [List.getD_eq_getElem?_getD] at h ⊢
  by_cases hi : i < m.length
  · have hi2 : i < (m.map (fun row =>
        row.map fun v => if v = sid then 1 else 0)).length := by simpa using hi
    rw [List.getElem?_eq_getElem hi2] at h
    rw [List.getElem?_eq_getElem hi]
    simp only [Option.getD_some, List.getElem_map] at h ⊢
    by_cases hj : j < m[i].length
    · have hj2 : j < (m[i].map fun v => if v = sid then 1 else 0).length := by
        simpa using hj
      rw [List.getElem?_eq_getElem hj2] at h
      rw [List.getElem?_eq_getElem hj]
      simp only [Option.getD_some, List.getElem_map] at h ⊢
      by_cases hv : m[i][j] = sid
      · exact hv
      · rw [if_neg hv] at h
        cases h
    · have hlen : (m[i].map fun v => if v = sid then 1 else 0).length ≤ j := by
        simpa using Nat.le_of_not_lt hj
      rw [List.getElem?_eq_none hlen] at h
      simp at h
  · have hlen : (m.map (fun row =>
        row.map fun v => if v = sid then 1 else 0)).length ≤ i := by
      simpa using Nat.le_of_not_lt hi
    rw [List.getElem?_eq_none hlen] at h
    simp at h

/-- Equality masks for distinct segment ids never overlap. -/
theorem eqMask_exclusive (m : List (List ℤ)) (s1 s2 : ℤ) (i j : ℕ)
    (hne : s1 ≠ s2) :
    ¬(getPixel (eqMask m s1) i j = 1 ∧ getPixel (eqMask m s2) i j = 1) := by
  rintro ⟨h1, h2⟩
  exact hne ((eqMask_pixel h1).symm.trans (eqMask_pixel h2))

/-- `get_panoptic_gt_for_image` written as a chain of `Option.bind`. -/
theorem get_panoptic_unfold (img_id : ℕ) (imgs : List (ℕ × ImageInfo))
    (anns : List (ℕ × PanopticAnn)) (catmap : List (ℕ × ℕ))
    (load : String → Option (List (List (ℕ × ℕ × ℕ)))) :
    get_panoptic_gt_for_image img_id imgs anns catmap load
      = (imgs.lookup img_id).bind (fun _ =>
          (anns.lookup img_id).bind (fun ann =>
            (load ann.file_name).bind (fun rgb =>
              (ann.segments_info.mapM (fun seg =>
                (catmap.lookup seg.category_id).map (fun class_id =>
                  ({ instance_id := seg.id, class_id := class_id,
                     mask := eqMask (rgb_to_id rgb) seg.id } : PanopticRecord)))).bind
                (fun recs =>
                  some (recs, (rgb_to_id rgb).length,
                    ((rgb_to_id rgb).headD []).length))))) := rfl

/-- A `Forall₂` witness for every member of the right list. -/
theorem forall₂_mem_right {α β : Type} {R : α → β → Prop} :
    ∀ {l : List α} {r : List β}, List.Forall₂ R l r → ∀ b ∈ r, ∃ a ∈ l, R a b := by
  intro l r h
  induction h with
  | nil => intro b hb; cases hb
  | cons hab htl ih =>
    intro b hb
    rcases List.mem_cons.mp hb with rfl | hb
    · exact ⟨_, by simp, hab⟩
    · rcases ih b hb with ⟨a, ha, hr⟩
      exact ⟨a, by simp [ha], hr⟩

/-- Success characterization of the panoptic assembler: the annotation and
image were found, and the records correspond index-wise to the segment
list. -/
theorem get_panoptic_spec {img_id : ℕ} {imgs : List (ℕ × ImageInfo)}
    {anns : List (ℕ × PanopticAnn)} {catmap : List (ℕ × ℕ)}
    {load : String → Option (List (List (ℕ × ℕ × ℕ)))}
    {recs : List PanopticRecord} {H W : ℕ}
    (h : get_panoptic_gt_for_image img_id imgs anns catmap load = some (recs, H, W)) :
    ∃ ann rgb, anns.lookup img_id = some ann ∧ load ann.file_name = some rgb ∧
      recs.length = ann.segments_info.length ∧
      (∀ i (hs : i < ann.segments_info.length) (hr : i < recs.length),
        (recs.get ⟨i, hr⟩).instance_id = (ann.segments_info.get ⟨i, hs⟩).id ∧
        catmap.lookup (ann.segments_info.get ⟨i, hs⟩).category_id
          = some (recs.get ⟨i, hr⟩).class_id ∧
        (recs.get ⟨i, hr⟩).mask
          = eqMask (rgb_to_id rgb) (ann.segments_info.get ⟨i, hs⟩).id) := by
  rw [get_panoptic_unfold] at h
  cases h1 : imgs.lookup img_id with
  | none => rw [h1, Option.none_bind] at h; cases h
  | some info =>
    rw [h1, Option.some_bind] at h
    cases h2 : anns.lookup img_id with
    | none => rw [h2, Option.none_bind] at h; cases h
    | some ann =>
      rw [h2, Option.some_bind] at h
      cases h3 : load ann.file_name with
      | none => rw [h3, Option.none_bind] at h; cases h
      | some rgb =>
        rw [h3, Option.some_bind] at h
        cases h4 : ann.segments_info.mapM (fun seg =>
            (catmap.lookup seg.category_id).map (fun class_id =>
              ({ instance_id := seg.id, class_id := class_id,
                 mask := eqMask (rgb_to_id rgb) seg.id : PanopticRecord}))) with
        | none => rw [h4, Option.none_bind] at h; cases h
        | some recs0 =>
          rw [h4, Option.some_bind] at h
          obtain ⟨rfl, rfl, rfl⟩ : recs0 = recs ∧
              (rgb_to_id rgb).length = H ∧
              ((rgb_to_id rgb).headD []).length = W := by
            simpa using h
          have hfa := forall₂_of_mapM_eq_some h4
          refine ⟨ann, rgb, rfl, h3, hfa.length_eq.symm, ?_⟩
          intro i hs hr
          have hg := hfa.get hs hr
          rcases Option.map_eq_some'.mp hg with ⟨cid, hcid, hrec⟩
          refine ⟨?_, ?_, ?_⟩
          · rw [← hrec]
          · rw [← hrec]
            exact hcid
          · rw [← hrec]

/-- C5: a successful panoptic assembly returns one record per segment in
segment-list order — `instance_id` the segment's id, `class_id` the
mapper's value, `mask` the pixel-wise equality test of the decoded map
against the segment id; equality masks of distinct segment ids are
mutually exclusive; and in the 4×4 two-segment scenario the two 8-pixel
masks partition all 16 pixels. -/
theorem C5_panoptic_records :
    (∀ (img_id : ℕ) (imgs : List (ℕ × ImageInfo)) (anns : List (ℕ × PanopticAnn))
        (catmap : List (ℕ × ℕ)) (load : String → Option (List (List (ℕ × ℕ × ℕ))))
        (recs : List PanopticRecord) (H W : ℕ),
      get_panoptic_gt_for_image img_id imgs anns catmap load = some (recs, H, W) →
      ∃ ann rgb, anns.lookup img_id = some ann ∧ load ann.file_name = some rgb ∧
        recs.length = ann.segments_info.length ∧
        (∀ i (hs : i < ann.segments_info.length) (hr : i < recs.length),
          (recs.get ⟨i, hr⟩).instance_id = (ann.segments_info.get ⟨i, hs⟩).id ∧
          catmap.lookup (ann.segments_info.get ⟨i, hs⟩).category_id
            = some (recs.get ⟨i, hr⟩).class_id ∧
          (recs.get ⟨i, hr⟩).mask
            = eqMask (rgb_to_id rgb) (ann.segments_info.get ⟨i, hs⟩).id)) ∧
    (∀ (m : List (List ℤ)) (s1 s2 : ℤ) (i j : ℕ), s1 ≠ s2 →
      ¬(getPixel (eqMask m s1) i j = 1 ∧ getPixel (eqMask m s2) i j = 1)) ∧
    (get_panoptic_gt_for_image 42 scenario_imgs scenario_anns
        (build_category_id_mapping scenario_categories) scenario_load
      = some ([⟨1000, 0, scenario_top_mask⟩, ⟨2000, 1, scenario_bot_mask⟩], 4, 4) ∧
     maskCount scenario_top_mask = 8 ∧ maskCount scenario_bot_mask = 8 ∧
     (∀ i < 4, ∀ j < 4,
        getPixel scenario_top_mask i j + getPixel scenario_bot_mask i j = 1)) := by
  exact ⟨fun _ _ _ _ _ _ _ _ h => get_panoptic_spec h, eqMask_exclusive, by decide!⟩

/-- C5 witness: a one-segment, one-pixel instance — the 4×4 scenario and
exclusivity parts are applied at concrete inputs as well. -/
theorem C5_panoptic_records_witness :
    (∃ ann rgb,
      ([(7, ⟨7, "a.png", [⟨3, 5⟩]⟩)] : List (ℕ × PanopticAnn)).lookup 7 = some ann ∧
      (fun _ : String => some [[((3 : ℕ), (0 : ℕ), (0 : ℕ))]]) ann.file_name = some rgb ∧
      ([⟨3, 0, [[1]]⟩] : List PanopticRecord).length = ann.segments_info.length ∧
      (∀ i (hs : i < ann.segments_info.length)
          (hr : i < ([⟨3, 0, [[1]]⟩] : List PanopticRecord).length),
        (([⟨3, 0, [[1]]⟩] : List PanopticRecord).get ⟨i, hr⟩).instance_id
          = (ann.segments_info.get ⟨i, hs⟩).id ∧
        ([((5 : ℕ), (0 : ℕ))] : List (ℕ × ℕ)).lookup
            (ann.segments_info.get ⟨i, hs⟩).category_id
          = some ((([⟨3, 0, [[1]]⟩] : List PanopticRecord).get ⟨i, hr⟩).class_id) ∧
        (([⟨3, 0, [[1]]⟩] : List PanopticRecord).get ⟨i, hr⟩).mask
          = eqMask (rgb_to_id rgb) ((ann.segments_info.get ⟨i, hs⟩).id))) ∧
    ¬(getPixel (eqMask [[(3 : ℤ)]] 3) 0 0 = 1 ∧
      getPixel (eqMask [[(3 : ℤ)]] 4) 0 0 = 1) :=
  ⟨C5_panoptic_records.1 7 [(7, ⟨7, 1, 1⟩)] [(7, ⟨7, "a.png", [⟨3, 5⟩]⟩)]
      [(5, 0)] (fun _ => some [[(3, 0, 0)]]) [⟨3, 0, [[1]]⟩] 1 1 (by decide!),
   C5_panoptic_records.2.1 [[(3 : ℤ)]] 3 4 0 0 (by decide)⟩

/-- `get_instance_gt_for_image` on a cons, as a chain of `Option.bind`. -/
theorem get_instance_cons (height width : ℕ) (catmap : List (ℕ × ℕ))
    (ann : Ann) (rest : List Ann) :
    get_instance_gt_for_image height width catmap (ann :: rest)
      = (catmap.lookup ann.category_id).bind (fun class_id =>
          (get_instance_gt_for_image height width catmap rest).bind (fun tail =>
            if isShape ann.decoded_mask height width then
              some ({ instance_id := ann.id, class_id := class_id,
                      mask := ann.decoded_mask } :: tail)
            else some tail)) := rfl

/-- The Boolean shape test, unpacked. -/
theorem isShape_iff {m : List (List ℕ)} {h w : ℕ} :
    isShape m h w = true ↔ m.length = h ∧ ∀ row ∈ m, row.length = w := by
  simp [isShape]

/-- Every record of a successful instance assembly comes from an
annotation whose category was mapped and whose decoded mask passed the
shape check, and carries that mask unchanged. -/
theorem get_instance_mem_spec {height width : ℕ} {catmap : List (ℕ × ℕ)} :
    ∀ {anns : List Ann} {recs : List InstanceRecord},
      get_instance_gt_for_image height width catmap anns = some recs →
      ∀ r ∈ recs, ∃ a ∈ anns,
        catmap.lookup a.category_id = some r.class_id ∧
        isShape a.decoded_mask height width = true ∧
        r.mask = a.decoded_mask ∧ r.instance_id = a.id := by
  intro anns
  induction anns with
  | nil =>
    intro recs h r hr
    cases h
    cases hr
  | cons x rest ih =>
    intro recs h r hr
    rw [get_instance_cons] at h
    cases hx : catmap.lookup x.category_id with
    | none => rw [hx, Option.none_bind] at h; cases h
    | some c =>
      rw [hx, Option.some_bind] at h
      cases ht : get_instance_gt_for_image height width catmap rest with
      | none => rw [ht, Option.none_bind] at h; cases h
      | some tail =>
        rw [ht, Option.some_bind] at h
        by_cases hsh : isShape x.decoded_mask height width = true
        · rw [if_pos hsh] at h
          cases h
          rcases List.mem_cons.mp hr with rfl | hr
          · exact ⟨x, by simp, hx, hsh, rfl, rfl⟩
          · rcases ih ht r hr with ⟨a, ha, h5⟩
            exact ⟨a, by simp [ha], h5⟩
        · rw [if_neg hsh] at h
          cases h
          rcases ih ht r hr with ⟨a, ha, h5⟩
          exact ⟨a, by simp [ha], h5⟩

/-- C6: assuming every category of the list is mapped, the instance
assembler succeeds (no exception); the masks it returns are exactly the
decoded masks of the shape-matching annotations, unchanged and in order;
and the output is shorter than the input by exactly the number of
shape-mismatching annotations. -/
theorem C6_shape_mismatch_drop (height width : ℕ) (catmap : List (ℕ × ℕ))
    (anns : List Ann)
    (hcat : ∀ a ∈ anns, (catmap.lookup a.category_id).isSome) :
    ∃ recs, get_instance_gt_for_image height width catmap anns = some recs ∧
      recs.map InstanceRecord.mask
        = (anns.filter (fun a => isShape a.decoded_mask height width)).map
            Ann.decoded_mask ∧
      recs.length
        = anns.length
          - (anns.filter (fun a => !(isShape a.decoded_mask height width))).length := by
  induction anns with
  | nil => exact ⟨[], rfl, rfl, rfl⟩
  | cons a rest ih =>
    rcases ih (fun x hx => hcat x (by simp [hx])) with ⟨recs, hr, hmask, hlen⟩
    rcases Option.isSome_iff_exists.mp (hcat a (by simp)) with ⟨c, hc⟩
    have hK := List.length_filter_le
      (fun x => !(isShape x.decoded_mask height width)) rest
    by_cases hsh : isShape a.decoded_mask height width = true
    · refine ⟨{ instance_id := a.id, class_id := c, mask := a.decoded_mask } :: recs,
        ?_, ?_, ?_⟩
      · rw [get_instance_cons, hc, Option.some_bind, hr, Option.some_bind, if_pos hsh]
      · simp only [List.map_cons, List.filter_cons, hsh, if_pos, hmask]
      · simp only [List.length_cons, List.filter_cons, hsh, Bool.not_true,
          Bool.false_eq_true, if_false]
        omega
    · refine ⟨recs, ?_, ?_, ?_⟩
      · rw [get_instance_cons, hc, Option.some_bind, hr, Option.some_bind, if_neg hsh]
      · have hsh2 : isShape a.decoded_mask height width = false :=
          Bool.eq_false_iff.mpr hsh
        simp only [List.filter_cons, hsh2, Bool.false_eq_true, if_false, hmask]
      · have hsh2 : isShape a.decoded_mask height width = false :=
          Bool.eq_false_iff.mpr hsh
        simp only [List.length_cons, List.filter_cons, hsh2, Bool.not_false, if_pos,
          List.length_cons]
        omega

/-- C6 witness: of two same-category annotations on a 1×1 image, the
shape-matching one is kept with its mask byte-for-byte, the 2×1-mask one
is dropped, and the output has length `2 - 1 = 1`. -/
theorem C6_shape_mismatch_drop_witness :
    ∃ recs, get_instance_gt_for_image 1 1 [(9, 0)]
        [⟨1, 9, (0, 0, 1, 1), [[1]]⟩, ⟨2, 9, (0, 0, 1, 1), [[1], [0]]⟩] = some recs ∧
      recs.map InstanceRecord.mask
        = (([⟨1, 9, (0, 0, 1, 1), [[1]]⟩, ⟨2, 9, (0, 0, 1, 1), [[1], [0]]⟩] : List Ann).filter
            (fun a => isShape a.decoded_mask 1 1)).map Ann.decoded_mask ∧
      recs.length
        = ([⟨1, 9, (0, 0, 1, 1), [[1]]⟩, ⟨2, 9, (0, 0, 1, 1), [[1], [0]]⟩] : List Ann).length
          - (([⟨1, 9, (0, 0, 1, 1), [[1]]⟩, ⟨2, 9, (0, 0, 1, 1), [[1], [0]]⟩] : List Ann).filter
              (fun a => !(isShape a.decoded_mask 1 1))).length :=
  C6_shape_mismatch_drop 1 1 [(9, 0)]
    [⟨1, 9, (0, 0, 1, 1), [[1]]⟩, ⟨2, 9, (0, 0, 1, 1), [[1], [0]]⟩] (by decide!)

/-- C9: a panoptic request for an image id absent from the image index or
the annotation index fails outright with `none`; when the id is present in
both (and the PNG loads and all segment categories are mapped) the call
succeeds. -/
theorem C9_lookup_miss :
    (∀ (img_id : ℕ) (imgs : List (ℕ × ImageInfo)) (anns : List (ℕ × PanopticAnn))
        (catmap : List (ℕ × ℕ)) (load : String → Option (List (List (ℕ × ℕ × ℕ)))),
      (imgs.lookup img_id = none ∨ anns.lookup img_id = none) →
      get_panoptic_gt_for_image img_id imgs anns catmap load = none) ∧
    (∀ (img_id : ℕ) (imgs : List (ℕ × ImageInfo)) (anns : List (ℕ × PanopticAnn))
        (catmap : List (ℕ × ℕ)) (load : String → Option (List (List (ℕ × ℕ × ℕ))))
        (info : ImageInfo) (ann : PanopticAnn) (rgb : List (List (ℕ × ℕ × ℕ))),
      imgs.lookup img_id = some info →
      anns.lookup img_id = some ann →
      load ann.file_name = some rgb →
      (∀ seg ∈ ann.segments_info, (catmap.lookup seg.category_id).isSome) →
      (get_panoptic_gt_for_image img_id imgs anns catmap load).isSome) := by
  constructor
  · intro img_id imgs anns catmap load hmiss
    rw [get_panoptic_unfold]
    rcases hmiss with hm | hm
    · rw [hm, Option.none_bind]
    · cases h1 : imgs.lookup img_id with
      | none => rw [Option.none_bind]
      | some info => rw [Option.some_bind, hm, Option.none_bind]
  · intro img_id imgs anns catmap load info ann rgb h1 h2 h3 hsegs
    rw [get_panoptic_unfold, h1, Option.some_bind, h2, Option.some_bind, h3,
      Option.some_bind]
    have hs : ∀ seg ∈ ann.segments_info,
        ((catmap.lookup seg.category_id).map (fun class_id =>
          ({ instance_id := seg.id, class_id := class_id,
             mask := eqMask (rgb_to_id rgb) seg.id } : PanopticRecord))).isSome := by
      intro seg hseg
      rcases Option.isSome_iff_exists.mp (hsegs seg hseg) with ⟨c, hc⟩
      rw [hc]
      exact rfl
    rcases Option.isSome_iff_exists.mp (mapM_isSome_of_forall hs) with ⟨recs, hrecs⟩
    rw [hrecs, Option.some_bind]
    exact rfl

/-- C9 witness: the empty indexes reject image id 1; the one-image indexes
accept image id 7. -/
theorem C9_lookup_miss_witness :
    get_panoptic_gt_for_image 1 [] [] [] (fun _ => none) = none ∧
    (get_panoptic_gt_for_image 7 [(7, ⟨7, 1, 1⟩)] [(7, ⟨7, "a.png", [⟨3, 5⟩]⟩)]
      [(5, 0)] (fun _ => some [[(3, 0, 0)]])).isSome :=
  ⟨C9_lookup_miss.1 1 [] [] [] (fun _ => none) (Or.inl rfl),
   C9_lookup_miss.2 7 [(7, ⟨7, 1, 1⟩)] [(7, ⟨7, "a.png", [⟨3, 5⟩]⟩)] [(5, 0)]
     (fun _ => some [[(3, 0, 0)]]) ⟨7, 1, 1⟩ ⟨7, "a.png", [⟨3, 5⟩]⟩ [[(3, 0, 0)]]
     rfl rfl rfl (by decide)⟩

/-- C10: in all three assemblers an annotation or segment whose
`category_id` is not a key of the supplied mapping makes the whole call
fail with `none` — it is not skipped the way a shape mismatch is. -/
theorem C10_unknown_category_fatal :
    (∀ (height width : ℕ) (anns : List Ann) (catmap : List (ℕ × ℕ)) (a : Ann),
      a ∈ anns → catmap.lookup a.category_id = none →
      get_detection_gt_for_image height width anns catmap = none) ∧
    (∀ (height width : ℕ) (anns : List Ann) (catmap : List (ℕ × ℕ)) (a : Ann),
      a ∈ anns → catmap.lookup a.category_id = none →
      get_instance_gt_for_image height width catmap anns = none) ∧
    (∀ (img_id : ℕ) (imgs : List (ℕ × ImageInfo)) (annidx : List (ℕ × PanopticAnn))
        (catmap : List (ℕ × ℕ)) (load : String → Option (List (List (ℕ × ℕ × ℕ))))
        (ann : PanopticAnn) (seg : PanopticSegment),
      annidx.lookup img_id = some ann → seg ∈ ann.segments_info →
      catmap.lookup seg.category_id = none →
      get_panoptic_gt_for_image img_id imgs annidx catmap load = none) := by
  refine ⟨?_, ?_, ?_⟩
  · intro height width anns catmap a ha hnone
    unfold get_detection_gt_for_image
    exact mapM_eq_none_of_mem ha (by rw [hnone]; rfl)
  · intro height width anns catmap a ha hnone
    induction anns with
    | nil => cases ha
    | cons x rest ih =>
      rw [get_instance_cons]
      rcases List.mem_cons.mp ha with rfl | ha2
      · rw [hnone, Option.none_bind]
      · cases hx : catmap.lookup x.category_id with
        | none => rw [Option.none_bind]
        | some c => rw [Option.some_bind, ih ha2, Option.none_bind]
  · intro img_id imgs annidx catmap load ann seg hann hseg hnone
    rw [get_panoptic_unfold]
    cases h1 : imgs.lookup img_id with
    | none => rw [Option.none_bind]
    | some info =>
      rw [Option.some_bind, hann, Option.some_bind]
      cases h3 : load ann.file_name with
      | none => rw [Option.none_bind]
      | some rgb =>
        rw [Option.some_bind, mapM_eq_none_of_mem hseg (by rw [hnone]; rfl),
          Option.none_bind]

/-- C10 witness: an annotation with category 9 against an empty mapping
aborts the detection and instance calls; a segment with category 5 absent
from the mapping aborts the panoptic call. -/
theorem C10_unknown_category_fatal_witness :
    get_detection_gt_for_image 1 1 [⟨1, 9, (0, 0, 1, 1), [[1]]⟩] [] = none ∧
    get_instance_gt_for_image 1 1 [] [⟨1, 9, (0, 0, 1, 1), [[1]]⟩] = none ∧
    get_panoptic_gt_for_image 7 [(7, ⟨7, 1, 1⟩)] [(7, ⟨7, "a.png", [⟨3, 5⟩]⟩)] []
      (fun _ => some [[(3, 0, 0)]]) = none :=
  ⟨C10_unknown_category_fatal.1 1 1 [⟨1, 9, (0, 0, 1, 1), [[1]]⟩] []
      ⟨1, 9, (0, 0, 1, 1), [[1]]⟩ (by decide!) rfl,
   C10_unknown_category_fatal.2.1 1 1 [⟨1, 9, (0, 0, 1, 1), [[1]]⟩] []
      ⟨1, 9, (0, 0, 1, 1), [[1]]⟩ (by decide!) rfl,
   C10_unknown_category_fatal.2.2 7 [(7, ⟨7, 1, 1⟩)] [(7, ⟨7, "a.png", [⟨3, 5⟩]⟩)] []
      (fun _ => some [[(3, 0, 0)]]) ⟨7, "a.png", [⟨3, 5⟩]⟩ ⟨3, 5⟩ rfl (by decide) rfl⟩

/-- `rgb_to_id` preserves the number of rows. -/
theorem rgb_to_id_length (img : List (List (ℕ × ℕ × ℕ))) :
    (rgb_to_id img).length = img.length := by
  simp [rgb_to_id]

/-- `rgb_to_id` preserves row widths. -/
theorem rgb_to_id_row_lengths {img : List (List (ℕ × ℕ × ℕ))} {w : ℕ}
    (h : ∀ row ∈ img, row.length = w) :
    ∀ row ∈ rgb_to_id img, row.length = w := by
  intro row hrow
  rcases List.mem_map.mp hrow with ⟨r0, hr0, rfl⟩
  simp [h r0 hr0]

/-- `eqMask` preserves the number of rows. -/
theorem eqMask_length (m : List (List ℤ)) (sid : ℤ) :
    (eqMask m sid).length = m.length := by
  simp [eqMask]

/-- `eqMask` preserves row widths. -/
theorem eqMask_row_lengths {m : List (List ℤ)} {sid : ℤ} {w : ℕ}
    (h : ∀ row ∈ m, row.length = w) :
    ∀ row ∈ eqMask m sid, row.length = w := by
  intro row hrow
  rcases List.mem_map.mp hrow with ⟨r0, hr0, rfl⟩
  simp [h r0 hr0]

/-- Every entry of an equality mask is `0` or `1`. -/
theorem eqMask_values (m : List (List ℤ)) (sid : ℤ) :
    ∀ row ∈ eqMask m sid, ∀ v ∈ row, v = 0 ∨ v = 1 := by
  intro row hrow v hv
  rcases List.mem_map.mp hrow with ⟨r0, -, rfl⟩
  rcases List.mem_map.mp hv with ⟨c, -, rfl⟩
  split
  · right; rfl
  · left; rfl

/-- The shape of a bbox mask. -/
theorem bbox_to_mask_length (x y w h : ℚ) (height width : ℕ) :
    (bbox_to_mask x y w h height width).length = height :=
  mkRectMask_length _ _ _ _ _ _

/-- The row widths of a bbox mask. -/
theorem bbox_to_mask_row_length (x y w h : ℚ) (height width : ℕ) :
    ∀ row ∈ bbox_to_mask x y w h height width, row.length = width :=
  mkRectMask_row_length _ _ _ _ _ _

/-- Every entry of a bbox mask is `0` or `1`. -/
theorem bbox_to_mask_values (x y w h : ℚ) (height width : ℕ) :
    ∀ row ∈ bbox_to_mask x y w h height width, ∀ v ∈ row, v = 0 ∨ v = 1 :=
  mkRectMask_values _ _ _ _ _ _

/-- Every record of a successful detection assembly comes from an
annotation whose category was mapped, and carries that bbox's mask. -/
theorem get_detection_mem_spec {height width : ℕ} {catmap : List (ℕ × ℕ)}
    {anns : List Ann} {recs : List DetectionRecord}
    (h : get_detection_gt_for_image height width anns catmap = some recs) :
    ∀ r ∈ recs, ∃ a ∈ anns,
      catmap.lookup a.category_id = some r.class_id ∧
      r.mask = bbox_to_mask a.bbox.1 a.bbox.2.1 a.bbox.2.2.1 a.bbox.2.2.2
        height width := by
  intro r hr
  have hfa := forall₂_of_mapM_eq_some h
  rcases forall₂_mem_right hfa r hr with ⟨a, ha, hfr⟩
  rcases Option.map_eq_some'.mp hfr with ⟨cid, hcid, hrec⟩
  refine ⟨a, ha, ?_, ?_⟩
  · rw [← hrec]
    exact hcid
  · rw [← hrec]

/-- C7: every record any of the three assemblers produces has a mask of
the image's declared shape with values in `{0, 1}` and a `class_id` in
`[0, N-1]` for `N` the number of categories; panoptic records carry their
segment's id as `instance_id`, in segment order, unique within the image
whenever the segment ids are.  (The instance part assumes the external
polygon/RLE decoder returns binary masks, and the panoptic part assumes
the decoded PNG has the image's declared dimensions.) -/
theorem C7_record_invariants :
    (∀ (height width : ℕ) (anns : List Ann) (cats : List Category)
        (recs : List DetectionRecord),
      get_detection_gt_for_image height width anns
          (build_category_id_mapping cats) = some recs →
      ∀ r ∈ recs, r.mask.length = height ∧
        (∀ row ∈ r.mask, row.length = width) ∧
        (∀ row ∈ r.mask, ∀ v ∈ row, v = 0 ∨ v = 1) ∧
        r.class_id < cats.length) ∧
    (∀ (height width : ℕ) (anns : List Ann) (cats : List Category)
        (recs : List InstanceRecord),
      (∀ a ∈ anns, ∀ row ∈ a.decoded_mask, ∀ v ∈ row, v = 0 ∨ v = 1) →
      get_instance_gt_for_image height width
          (build_category_id_mapping cats) anns = some recs →
      ∀ r ∈ recs, r.mask.length = height ∧
        (∀ row ∈ r.mask, row.length = width) ∧
        (∀ row ∈ r.mask, ∀ v ∈ row, v = 0 ∨ v = 1) ∧
        r.class_id < cats.length) ∧
    (∀ (img_id : ℕ) (imgs : List (ℕ × ImageInfo))
        (annidx : List (ℕ × PanopticAnn)) (cats : List Category)
        (load : String → Option (List (List (ℕ × ℕ × ℕ))))
        (info : ImageInfo) (ann : PanopticAnn) (rgb : List (List (ℕ × ℕ × ℕ)))
        (recs : List PanopticRecord) (H W : ℕ),
      imgs.lookup img_id = some info →
      annidx.lookup img_id = some ann →
      load ann.file_name = some rgb →
      rgb.length = info.height →
      (∀ row ∈ rgb, row.length = info.width) →
      (ann.segments_info.map PanopticSegment.id).Nodup →
      get_panoptic_gt_for_image img_id imgs annidx
          (build_category_id_mapping cats) load = some (recs, H, W) →
      (∀ r ∈ recs, r.mask.length = info.height ∧
        (∀ row ∈ r.mask, row.length = info.width) ∧
        (∀ row ∈ r.mask, ∀ v ∈ row, v = 0 ∨ v = 1) ∧
        r.class_id < cats.length) ∧
      recs.map PanopticRecord.instance_id
        = ann.segments_info.map PanopticSegment.id ∧
      (recs.map PanopticRecord.instance_id).Nodup) := by
  refine ⟨?_, ?_, ?_⟩
  · intro height width anns cats recs h r hr
    rcases get_detection_mem_spec h r hr with ⟨a, ha, hcid, hmask⟩
    refine ⟨?_, ?_, ?_, lookup_build_mapping_lt hcid⟩
    · rw [hmask]
      exact bbox_to_mask_length _ _ _ _ _ _
    · rw [hmask]
      exact bbox_to_mask_row_length _ _ _ _ _ _
    · rw [hmask]
      exact bbox_to_mask_values _ _ _ _ _ _
  · intro height width anns cats recs hbin h r hr
    rcases get_instance_mem_spec h r hr with ⟨a, ha, hcid, hsh, hmask, -⟩
    rcases isShape_iff.mp hsh with ⟨hlen, hrows⟩
    refine ⟨?_, ?_, ?_, lookup_build_mapping_lt hcid⟩
    · rw [hmask]
      exact hlen
    · rw [hmask]
      exact hrows
    · rw [hmask]
      exact hbin a ha
  · intro img_id imgs annidx cats load info ann rgb recs H W h1 h2 h3 hlen
      hrows hnd h
    rcases get_panoptic_spec h with ⟨ann2, rgb2, h2b, h3b, hlen2, hpt⟩
    rw [h2] at h2b
    obtain rfl : ann = ann2 := Option.some.inj h2b
    rw [h3] at h3b
    obtain rfl : rgb = rgb2 := Option.some.inj h3b
    have hmap : recs.map PanopticRecord.instance_id
        = ann.segments_info.map PanopticSegment.id := by
      apply List.ext_get
      · simp [hlen2]
      · intro i hh1 hh2
        simp only [List.get_eq_getElem, List.getElem_map]
        have := (hpt i (by simpa using hh2) (by simpa using hh1)).1
        simpa [List.get_eq_getElem] using this
    refine ⟨?_, hmap, hmap ▸ hnd⟩
    intro r hr
    rcases List.mem_iff_get.mp hr with ⟨n, rfl⟩
    have hn2 : (n : ℕ) < ann.segments_info.length := by
      have := n.2
      omega
    rcases hpt n.1 hn2 n.2 with ⟨-, hcid, hmask⟩
    refine ⟨?_, ?_, ?_, lookup_build_mapping_lt hcid⟩
    · rw [hmask, eqMask_length, rgb_to_id_length, hlen]
    · rw [hmask]
      exact eqMask_row_lengths (rgb_to_id_row_lengths hrows)
    · rw [hmask]
      exact eqMask_values _ _

/-- C7 witness: the three assemblers applied to one-annotation inputs on a
1×1 image with the single-category label space `[9]`. -/
theorem C7_record_invariants_witness :
    (∀ r ∈ ([⟨0, [[1]]⟩] : List DetectionRecord), r.mask.length = 1 ∧
      (∀ row ∈ r.mask, row.length = 1) ∧
      (∀ row ∈ r.mask, ∀ v ∈ row, v = 0 ∨ v = 1) ∧
      r.class_id < ([⟨9, "c"⟩] : List Category).length) ∧
    (∀ r ∈ ([⟨1, 0, [[1]]⟩] : List InstanceRecord), r.mask.length = 1 ∧
      (∀ row ∈ r.mask, row.length = 1) ∧
      (∀ row ∈ r.mask, ∀ v ∈ row, v = 0 ∨ v = 1) ∧
      r.class_id < ([⟨9, "c"⟩] : List Category).length) ∧
    ((∀ r ∈ ([⟨3, 0, [[1]]⟩] : List PanopticRecord),
        r.mask.length = (⟨7, 1, 1⟩ : ImageInfo).height ∧
        (∀ row ∈ r.mask, row.length = (⟨7, 1, 1⟩ : ImageInfo).width) ∧
        (∀ row ∈ r.mask, ∀ v ∈ row, v = 0 ∨ v = 1) ∧
        r.class_id < ([⟨9, "c"⟩] : List Category).length) ∧
      ([⟨3, 0, [[1]]⟩] : List PanopticRecord).map PanopticRecord.instance_id
        = (⟨7, "a.png", [⟨3, 9⟩]⟩ : PanopticAnn).segments_info.map
            PanopticSegment.id ∧
      (([⟨3, 0, [[1]]⟩] : List PanopticRecord).map
          PanopticRecord.instance_id).Nodup) :=
  ⟨C7_record_invariants.1 1 1 [⟨1, 9, (0, 0, 1, 1), [[1]]⟩] [⟨9, "c"⟩]
      [⟨0, [[1]]⟩] (by decide!),
   C7_record_invariants.2.1 1 1 [⟨1, 9, (0, 0, 1, 1), [[1]]⟩] [⟨9, "c"⟩]
      [⟨1, 0, [[1]]⟩] (by decide!) (by decide!),
   C7_record_invariants.2.2 7 [(7, ⟨7, 1, 1⟩)] [(7, ⟨7, "a.png", [⟨3, 9⟩]⟩)]
      [⟨9, "c"⟩] (fun _ => some [[(3, 0, 0)]]) ⟨7, 1, 1⟩ ⟨7, "a.png", [⟨3, 9⟩]⟩
      [[(3, 0, 0)]] [⟨3, 0, [[1]]⟩] 1 1 rfl rfl rfl rfl (by decide) (by decide)
      (by decide!)⟩

end CocoGT
